import Mathlib

/-!
Verification of the combat resolution engine and the text layout / list
viewport logic of the time-loop TUI game.

The Rust source is embedded shallowly:

* `usize` values become `Nat`; the game never comes near `2 ^ 64` so plain
  `Nat` addition is used where the source uses checked `+`, while every
  subtraction that can underflow (and hence panic in a debug build) is
  modelled with `checkedSub`, returning `none` on underflow.
* `Vec<T>` becomes `List T`; panicking operations (`Vec::remove`, indexing)
  become `Option`-returning functions.
* functions taking `&mut self` are modelled as functions returning the
  (possibly updated) value; functions whose only other effect is producing
  narration strings or terminal output return just the state effect, the
  narration text itself is not modelled.
-/

namespace TimeLoop

/-- Checked `usize` subtraction: Rust's `a - b`, which panics on underflow
in a debug build.  `none` models the panic. -/
def checkedSub (a b : Nat) : Option Nat :=
  if b ≤ a then some (a - b) else none

/-- Rust `Vec::remove`: removes and returns the element at index `i`,
shifting later elements down.  `none` models the out-of-bounds panic. -/
def vecRemove {α : Type} : List α → Nat → Option (α × List α)
  | [], _ => none
  | a :: as, 0 => some (a, as)
  | a :: as, n + 1 => (vecRemove as n).map (fun r => (r.1, a :: r.2))

/-- Rust `Iterator::position`: index of the first element satisfying `p`. -/
def listPosition {α : Type} (p : α → Bool) : List α → Option Nat
  | [] => none
  | a :: as => if p a then some 0 else (listPosition p as).map (· + 1)

/-! ## `src/combat/health.rs` -/

/-- The health of the player or an enemy (`Health` in `src/combat/health.rs`,
a newtype over `usize`). -/
structure Health where
  val : Nat
deriving DecidableEq

/-- A change in `Health` (`Damage` in `src/combat/health.rs`). -/
structure Damage where
  val : Nat
deriving DecidableEq

namespace Health

/-- `Health::new`. -/
def new (health : Nat) : Health := ⟨health⟩

/-- `Health::is_0`. -/
def is_0 (h : Health) : Bool := h.val == 0

/-- `Health::as_usize`. -/
def as_usize (h : Health) : Nat := h.val

/-- `Health::heal_to_max`: increases the health by `heal_by` up to `max`,
returning the new health together with how much the health increased by.
The source computes `new_health - self.0` with an unchecked `usize`
subtraction, so the model returns `none` when that would underflow
(it cannot when the current health is at most `max`). -/
def heal_to_max (h : Health) (heal_by : Damage) (max : Health) :
    Option (Health × Damage) :=
  let new_health := Nat.min max.val (h.val + heal_by.val)
  (checkedSub new_health h.val).map (fun diff => (⟨new_health⟩, ⟨diff⟩))

/-- `impl Sub<Damage> for Health`: `self.0.saturating_sub(rhs.0)`, which is
exactly truncated `Nat` subtraction. -/
def sub (h : Health) (rhs : Damage) : Health := ⟨h.val - rhs.val⟩

/-- `impl SubAssign<Damage> for Health`: also `saturating_sub`. -/
def sub_assign (h : Health) (rhs : Damage) : Health := ⟨h.val - rhs.val⟩

/-- `impl Add<Damage> for Health` (unchecked `usize` addition; overflow is
unreachable for game quantities). -/
def add (h : Health) (rhs : Damage) : Health := ⟨h.val + rhs.val⟩

/-- `impl Sub<Self> for Health`, producing a `Damage`; the source subtraction
is unchecked, so underflow is modelled as `none`. -/
def sub_health (h : Health) (rhs : Health) : Option Damage :=
  (checkedSub h.val rhs.val).map Damage.mk

end Health

/-! ## `src/items.rs` -/

/-- `Food` in `src/items.rs`. -/
structure Food where
  name : String
  description : String
  heals_for : Damage
deriving DecidableEq

/-- `Weapon` in `src/items.rs`. -/
structure Weapon where
  name : String
  description : String
  straight_damage : Damage
  dodge_damage : Damage
  speed : Nat
deriving DecidableEq

/-- `Item` in `src/items.rs`.  The `CaptainsDiary` page is a `u8`; only
combat-irrelevant display code reads it, so it is carried as a plain `Nat`. -/
inductive Item : Type
  | food (f : Food)
  | weapon (w : Weapon)
  | maps
  | escapePodKeys
  | dust
  | shame
  | captainsDiary (page : Nat)
deriving DecidableEq

/-- `matches!(i, Item::Food(_))` from `Enemy::choose_combat_action`. -/
def Item.isFood : Item → Bool
  | .food _ => true
  | _ => false

/-- `matches!(i, Item::Weapon(_))` from `Enemy::choose_combat_action`. -/
def Item.isWeapon : Item → Bool
  | .weapon _ => true
  | _ => false

/-! ## `src/combat.rs` data model -/

/-- `Enemy` in `src/combat.rs`. -/
structure Enemy where
  name : String
  description : String
  inventory : List Item
  health : Health
  max_health : Health
deriving DecidableEq

/-- `Player` in `src/player.rs`.  Only the combat-relevant fields are
modelled; `room`, `room_graph` and `remaining_turns` are static world /
pacing data never read or written by the combat engine embedded here. -/
structure Player where
  inventory : List Item
  health : Health
  max_health : Health
deriving DecidableEq

/-- `BattleResult` in `src/combat.rs`. -/
inductive BattleResult : Type
  | playerWin
  | playerLoss
deriving DecidableEq

/-- `Action` in `src/combat.rs` (variant order as in the source). -/
inductive Action : Type
  | nothing
  | eatFood (i : Nat)
  | attackStraight (i : Nat)
  | attackLeft (i : Nat)
  | attackRight (i : Nat)
  | dodgeLeft
  | dodgeRight
deriving DecidableEq

/-! ## Enemy AI (`src/combat.rs`, `impl Enemy`) -/

/-- Modelled from the spec: the source hashes the enemy state with Rust's
`std::collections::hash_map::DefaultHasher` (a fixed-key SipHash, outside
this repository); spec §9 asks for "an explicit, stable, non-cryptographic
mix function … over a canonical serialization of the enemy's
identity/health/inventory contents plus the turn number".  This is a 64-bit
FNV-1a step over one byte-like unit of that serialization. -/
def mixStep (h b : Nat) : Nat :=
  ((h ^^^ b) * 1099511628211) % (2 ^ 64)

/-- Canonical serialization of a string for hashing. -/
def encodeString (s : String) : List Nat :=
  s.data.map Char.toNat

/-- Canonical serialization of an `Item` for hashing (variant tag followed by
field contents, mirroring `#[derive(Hash)]` on `Item`). -/
def encodeItem : Item → List Nat
  | .food f => 0 :: encodeString f.name ++ encodeString f.description ++ [f.heals_for.val]
  | .weapon w => 1 :: encodeString w.name ++ encodeString w.description ++
      [w.straight_damage.val, w.dodge_damage.val, w.speed]
  | .maps => [2]
  | .escapePodKeys => [3]
  | .dust => [4]
  | .shame => [5]
  | .captainsDiary page => [6, page]

/-- Canonical serialization of the full hashable `Enemy` state, mirroring
`#[derive(Hash)]` on `Enemy` (field order: name, description, inventory,
health, max_health). -/
def encodeEnemy (e : Enemy) : List Nat :=
  encodeString e.name ++ encodeString e.description ++
    (e.inventory.map encodeItem).flatten ++ [e.health.val, e.max_health.val]

namespace Enemy

/-- `Enemy::hash_with_turn`: a deterministic hash of the enemy's full state
and the provided turn number. -/
def hash_with_turn (e : Enemy) (turn_number : Nat) : Nat :=
  (encodeEnemy e ++ [turn_number]).foldl mixStep 14695981039346656037

/-- `Enemy::choose_combat_action`.  The source takes `&mut self` (though its
body never writes through it), so the model returns the chosen `Action`
together with the enemy value as left by the call. -/
def choose_combat_action (e : Enemy) (turn_number : Nat) : Action × Enemy :=
  -- If enemy is at less than half health and has food, then eat it
  match (if e.health.as_usize * 2 ≤ e.max_health.as_usize then
      listPosition Item.isFood e.inventory else none) with
  | some food_index => (.eatFood food_index, e)
  | none =>
    -- Find the index of the first weapon in the inventory, if there is one
    let weapon_index := listPosition Item.isWeapon e.inventory
    -- Get a hash of self using the turn number
    let hash := e.hash_with_turn turn_number
    -- Pseudorandomly pick an action
    match weapon_index with
    | some weapon_index =>
      match hash % 8 with
      | 0 => (.attackLeft weapon_index, e)
      | 1 => (.attackStraight weapon_index, e)
      | 2 => (.attackStraight weapon_index, e)
      | 3 => (.attackStraight weapon_index, e)
      | 4 => (.attackRight weapon_index, e)
      | 5 => (.dodgeLeft, e)
      | 6 => (.dodgeRight, e)
      -- `7 => Nothing`; values above 7 are the source's `unreachable!()`
      -- arm, impossible since `hash % 8 < 8`
      | _ => (.nothing, e)
    | none =>
      match hash % 7 with
      | 0 => (.dodgeLeft, e)
      | 1 => (.dodgeLeft, e)
      | 2 => (.nothing, e)
      | 3 => (.nothing, e)
      | 4 => (.nothing, e)
      -- `5..=6 => DodgeRight`; values above 6 are the source's
      -- `unreachable!()` arm, impossible since `hash % 7 < 7`
      | _ => (.dodgeRight, e)

end Enemy

/-! ## Turn resolution (`execute_actions` in `src/combat.rs`)

The match arms appear in exactly the source's order; `none` models the
source's panics (`unreachable!()` on an inventory index of the wrong item
kind, `Vec` indexing / `Vec::remove` out of bounds, underflow inside
`heal_to_max`).  The narration text built by the source is not modelled,
but the panics its construction can raise are: after the match,
`execute_actions` re-describes both actions against the post-turn states,
and `describe_combat_action` indexes the (possibly already shrunk)
inventories. -/

/-- The `let result_text = match (player_action, enemy_action) { … }` block
of `execute_actions`: the state effects of resolving the chosen action
pair, before the closing narration is built. -/
def resolve_turn (player : Player) (enemy : Enemy)
    (player_action enemy_action : Action) : Option (Player × Enemy) :=
  match player_action, enemy_action with
  -- Player hits enemy straight
  | .attackStraight p, .nothing
  | .attackStraight p, .attackLeft _
  | .attackStraight p, .attackRight _
  | .attackStraight p, .eatFood _ =>
    match player.inventory[p]? with
    | some (.weapon weapon) =>
      some (player, { enemy with health := enemy.health.sub_assign weapon.straight_damage })
    | _ => none
  -- Enemy hits player straight
  | .nothing, .attackStraight e
  | .attackLeft _, .attackStraight e
  | .attackRight _, .attackStraight e
  | .eatFood _, .attackStraight e =>
    match enemy.inventory[e]? with
    | some (.weapon weapon) =>
      some ({ player with health := player.health.sub_assign weapon.straight_damage }, enemy)
    | _ => none
  -- Both attack straight
  | .attackStraight p, .attackStraight e =>
    match player.inventory[p]?, enemy.inventory[e]? with
    | some (.weapon p_weapon), some (.weapon e_weapon) =>
      -- What happens when both combatants attack is determined by the speed
      -- values of their weapons
      match compare p_weapon.speed e_weapon.speed with
      -- If the player's weapon is faster, only the player hits
      | .lt => some (player, { enemy with health := enemy.health.sub_assign p_weapon.straight_damage })
      -- If the enemy's weapon is faster, only the enemy hits
      | .gt => some ({ player with health := player.health.sub_assign e_weapon.straight_damage }, enemy)
      -- If they have the same speed, both get hit
      | .eq => some ({ player with health := player.health.sub_assign e_weapon.straight_damage },
                     { enemy with health := enemy.health.sub_assign p_weapon.straight_damage })
    | _, _ => none
  -- Both heal
  | .eatFood p, .eatFood e =>
    match vecRemove player.inventory p with
    | some (.food p_food, p_inv) =>
      match vecRemove enemy.inventory e with
      | some (.food e_food, e_inv) =>
        match player.health.heal_to_max p_food.heals_for player.max_health with
        | some (p_health, _) =>
          match enemy.health.heal_to_max e_food.heals_for enemy.max_health with
          | some (e_health, _) =>
            some ({ player with inventory := p_inv, health := p_health },
                  { enemy with inventory := e_inv, health := e_health })
          | none => none
        | none => none
      | _ => none
    | _ => none
  -- Player heals
  | .eatFood p, _ =>
    match vecRemove player.inventory p with
    | some (.food p_food, p_inv) =>
      match player.health.heal_to_max p_food.heals_for player.max_health with
      | some (p_health, _) =>
        some ({ player with inventory := p_inv, health := p_health }, enemy)
      | none => none
    | _ => none
  -- Enemy heals
  | _, .eatFood e =>
    match vecRemove enemy.inventory e with
    | some (.food e_food, e_inv) =>
      match enemy.health.heal_to_max e_food.heals_for enemy.max_health with
      | some (e_health, _) =>
        some (player, { enemy with inventory := e_inv, health := e_health })
      | none => none
    | _ => none
  -- Enemy dodges but player hits
  | .attackLeft p, .dodgeLeft
  | .attackRight p, .dodgeRight =>
    match player.inventory[p]? with
    | some (.weapon p_weapon) =>
      some (player, { enemy with health := enemy.health.sub_assign p_weapon.dodge_damage })
    | _ => none
  -- Player dodges but enemy hits
  | .dodgeLeft, .attackLeft e
  | .dodgeRight, .attackRight e =>
    match enemy.inventory[e]? with
    | some (.weapon e_weapon) =>
      some ({ player with health := player.health.sub_assign e_weapon.dodge_damage }, enemy)
    | _ => none
  -- Neither the player or the enemy attacks
  | .nothing, .nothing
  | .nothing, .dodgeLeft
  | .nothing, .dodgeRight
  | .dodgeLeft, .nothing
  | .dodgeLeft, .dodgeLeft
  | .dodgeLeft, .dodgeRight
  | .dodgeRight, .nothing
  | .dodgeRight, .dodgeLeft
  | .dodgeRight, .dodgeRight =>
    some (player, enemy)
  -- The player attacks but it is dodged
  | .attackLeft _, _
  | .attackStraight _, _
  | .attackRight _, _ =>
    some (player, enemy)
  -- The enemy attacks but it is dodged
  | _, .attackLeft _
  | _, .attackStraight _
  | _, .attackRight _ =>
    some (player, enemy)

/-- `Player::describe_combat_action` / `Enemy::describe_combat_action`
(`src/player.rs` and `src/combat.rs`): every attack and eat variant indexes
`self.inventory` at the carried index to name the item, so the call panics
exactly when that index is out of bounds of the inventory it is given; the
panic is all the model keeps of the call, the text is dropped. -/
def describe_combat_action_ok (inventory : List Item) : Action → Bool
  | .eatFood i
  | .attackStraight i
  | .attackLeft i
  | .attackRight i => decide (i < inventory.length)
  | _ => true

/-- `execute_actions` in `src/combat.rs`: resolves the turn via the match
block (`resolve_turn`) and then builds
`format!("{}\n{}\n{result_text}", player.describe_combat_action(player_action),
enemy.describe_combat_action(enemy_action))` against the post-turn states.
Those describe calls index the (possibly already shrunk by an eat branch)
inventories with the original action indices, so the source panics — and
the model returns `none` — whenever either index is out of bounds of the
post-turn inventory. -/
def execute_actions (player : Player) (enemy : Enemy)
    (player_action enemy_action : Action) : Option (Player × Enemy) :=
  (resolve_turn player enemy player_action enemy_action).bind fun pe =>
    if describe_combat_action_ok pe.1.inventory player_action &&
        describe_combat_action_ok pe.2.inventory enemy_action then
      some pe
    else none

/-! ## Battle loop (`battle` and `win_battle` in `src/combat.rs`) -/

/-- `Player::pick_up_item`. -/
def Player.pick_up_item (player : Player) (item : Item) : Player :=
  { player with inventory := player.inventory ++ [item] }

/-- `win_battle`: adds the enemy's items to the player's inventory (the
battle-win screen it also shows is display only and not modelled). -/
def win_battle (player : Player) (enemy : Enemy) : Player :=
  enemy.inventory.foldl Player.pick_up_item player

/-- The loop of `battle`.  The player's choices come from the external menu,
modelled as a stream `acts` indexed by the turn number at which the choice
is made; `fuel` bounds the number of iterations (the source loop runs until
a combatant dies), and `none` models both a panic inside the turn and fuel
running out.  On return the result is paired with the final state of
`*turn_number` and the resulting player state. -/
def battle_loop (acts : Nat → Action) : Nat → Player → Enemy → Nat →
    Option (BattleResult × Player × Nat)
  | 0, _, _, _ => none
  | fuel + 1, player, enemy, turn_number =>
    -- Get the player and enemy's actions
    let player_action := acts turn_number
    match enemy.choose_combat_action turn_number with
    | (enemy_action, enemy) =>
      -- Carry out the actions
      match execute_actions player enemy player_action enemy_action with
      | none => none
      | some (player, enemy) =>
        if player.health.is_0 then
          some (.playerLoss, player, turn_number)
        else if enemy.health.is_0 then
          some (.playerWin, win_battle player enemy, turn_number)
        else
          battle_loop acts fuel player enemy (turn_number + 1)

/-! ## List viewport tracking (`Tui::render_list` in
`src/menu/unix/rendering.rs`)

The scroll-offset update is the pure core of `render_list`: it reads the
item count, the terminal capacity in lines, the selected index and the
previous `*scroll`, and writes the new `*scroll`.  The rendering that
follows shows the items `scroll..` capped at `num_lines_to_render` rows
(recomputed after the update), with the last row replaced by an ellipsis
when the window stops short of the end of the list. -/
def render_list_scroll (num_items max_lines selected scroll : Nat) : Nat :=
  let requires_scroll := max_lines < num_items
  let ellipsis_at_end := requires_scroll ∧ scroll + max_lines < num_items
  let lines_to_render := if ellipsis_at_end then max_lines - 1 else num_items
  -- If the screen is big enough for all the lines, set scroll to 0
  if ¬requires_scroll then 0
  -- If the screen just got bigger, make sure the list still takes up the
  -- whole space
  else if num_items - max_lines < scroll then num_items - max_lines
  -- If the current selection is off the top of the screen, scroll up
  else if selected < scroll then selected
  -- If the current selection is off the bottom of the screen, scroll down
  else if scroll + lines_to_render ≤ selected then selected - lines_to_render + 1
  else scroll

/-- The number of item rows `render_list` actually draws for a given scroll
offset: `items.iter().enumerate().skip(scroll).take(num_lines_to_render)`
yields `min num_lines_to_render (num_items - scroll)` rows, where
`num_lines_to_render` is recomputed from the updated scroll. -/
def render_list_visible_rows (num_items max_lines scroll : Nat) : Nat :=
  let ellipsis_at_end := max_lines < num_items ∧ scroll + max_lines < num_items
  let num_lines_to_render := if ellipsis_at_end then max_lines - 1 else num_items
  Nat.min num_lines_to_render (num_items - scroll)

/-! ## Text layout (`src/menu/unix/text_layout.rs`)

The layout algorithm is embedded over a symbolic form of its input: a
source line is given already split at the `' '` bytes (as `line.split(' ')`
yields it), as the list of its words, each word the list of its grapheme
clusters, each cluster carrying its byte length and its display-column
width.  The separating spaces are single clusters of byte length 1 and
width 1, so byte indices into the reconstructed line are faithful.  String
slicing is modelled at grapheme granularity: a slice whose end points do
not fall on cluster boundaries yields `none` (the source can also slice at
a char boundary inside a multi-char cluster, but no claim settled here
depends on that finer case).  As everywhere in this file, `none` models a
panic: `usize` underflow (debug build) or an out-of-range slice. -/

/-- One grapheme cluster of the source text: its length in bytes and its
display width in terminal columns. -/
structure Grapheme where
  len : Nat
  width : Nat
deriving DecidableEq

/-- A word, as produced by `line.split(' ')`. -/
abbrev Word := List Grapheme

/-- `TEXT_WRAPPING_MIN_SEGMENT_SIZE` in `src/menu/unix/consts.rs`. -/
def TEXT_WRAPPING_MIN_SEGMENT_SIZE : Nat := 5

/-- `UnicodeWidthStr::width` of a word: the sum of its clusters' widths. -/
def wordWidth (w : Word) : Nat := (w.map Grapheme.width).sum

/-- `str::len` of a word: the sum of its clusters' byte lengths. -/
def wordLen (w : Word) : Nat := (w.map Grapheme.len).sum

/-- The grapheme clusters of the whole source line: the words joined by
single spaces (each space one cluster of byte length 1, width 1). -/
def lineGraphemes (words : List Word) : List Grapheme :=
  match words with
  | [] => []
  | w :: ws => w ++ (ws.map (fun w' => (⟨1, 1⟩ : Grapheme) :: w')).flatten

/-- Drops the clusters making up the first `n` bytes; `none` when `n` is not
a cluster boundary or runs past the end. -/
def dropBytes : List Grapheme → Nat → Option (List Grapheme)
  | gs, 0 => some gs
  | [], _ + 1 => none
  | g :: gs, n + 1 =>
    if g.len ≤ n + 1 then dropBytes gs (n + 1 - g.len) else none

/-- Takes the clusters making up the first `n` bytes; `none` when `n` is not
a cluster boundary or runs past the end. -/
def takeBytes : List Grapheme → Nat → Option (List Grapheme)
  | _, 0 => some []
  | [], _ + 1 => none
  | g :: gs, n + 1 =>
    if g.len ≤ n + 1 then (takeBytes gs (n + 1 - g.len)).map (g :: ·)
    else none

/-- `&line[a..b]`: the clusters between byte positions `a` and `b`. -/
def sliceBytes (gs : List Grapheme) (a b : Nat) : Option (List Grapheme) :=
  if a ≤ b then (dropBytes gs a).bind (fun rest => takeBytes rest (b - a))
  else none

/-- `TextLine` in `src/menu/unix/text_layout.rs`: one display line, its
content given as its grapheme clusters, the mid-word-continuation flag, and
its recorded length in graphemes. -/
structure TextLine where
  content : List Grapheme
  dash_at_end : Bool
  length : Nat
deriving DecidableEq

/-- The mutable local state of `TextLayout::add_source_line`, together with
the lines pushed so far. -/
structure LayoutState where
  /-- `x`: the column position of the end of the current render line. -/
  x : Nat
  /-- `current_render_line_start`. -/
  crls : Nat
  /-- `current_render_line_end`. -/
  crle : Nat
  /-- `is_line_start`. -/
  is_line_start : Bool
  /-- `self.lines` accumulated so far. -/
  lines : List TextLine
deriving DecidableEq

/-- Pushes `line[st.crls..st.crle]` as a finished render line. -/
def pushRenderLine (line : List Grapheme) (st : LayoutState) (dash : Bool) :
    Option (List TextLine) :=
  (sliceBytes line st.crls st.crle).map
    (fun content => st.lines ++ [⟨content, dash, content.length⟩])

/-- The `for (i, g) in word.grapheme_indices(true)` loop of
`add_source_line` (the hyphenation loop); `i` is the byte offset of the
cluster at the head of the remaining word. -/
def hyphenLoop (max_width : Nat) (line : List Grapheme) (word_start_index : Nat) :
    List Grapheme → Nat → LayoutState → Option LayoutState
  | [], _, st => some st
  | g :: gs, i, st => do
    let x := st.x + g.width
    let st ←
      if max_width < x then do
        let lines ← pushRenderLine line st true
        pure { st with lines := lines, crls := st.crle, x := g.width + 1 }
      else
        pure { st with x := x }
    hyphenLoop max_width line word_start_index gs (i + g.len)
      { st with crle := word_start_index + i }

/-- The `for word in line.split(' ')` loop of `add_source_line`.  `line` is
the byte-indexable form of the whole source line, `words` the remaining
words. -/
def wordLoop (max_width : Nat) (line : List Grapheme) :
    List Word → LayoutState → Option LayoutState
  | [], st => some st
  | word :: words, st => do
    -- The display width of the word
    let width := wordWidth word
    -- If the word fits on the current line
    if st.x + width ≤ max_width then
      -- At the start of the line, current_render_line_end points to the
      -- first letter; in this situation, don't add the width of the space
      let crle := if st.is_line_start then st.crle + wordLen word
        else st.crle + wordLen word + 1
      wordLoop max_width line words
        { st with crle := crle, is_line_start := false, x := st.x + width + 1 }
    else do
      -- The remaining width on the current line;
      -- `self.max_width - (x - 1)` with two unchecked usize subtractions
      let xm1 ← checkedSub st.x 1
      let width_left ← checkedSub max_width xm1
      -- Whether a hyphen is needed to print the word
      let needs_hyphen := width_left * 2 < width
      -- If the sizes of the upper and lower segments would be big enough
      let first_segment_long_enough := TEXT_WRAPPING_MIN_SEGMENT_SIZE ≤ width_left
      let wml ← checkedSub width width_left
      let last_segment_long_enough := TEXT_WRAPPING_MIN_SEGMENT_SIZE ≤ wml
      let could_hyphenate := first_segment_long_enough ∧ last_segment_long_enough
      let render_hyphen := needs_hyphen ∨ could_hyphenate
      let move_to_new_line := st.x ≠ 0 ∧ ¬could_hyphenate
      -- If the word should be hyphenated
      if render_hyphen then do
        let (st, word_start_index) ←
          if move_to_new_line then do
            -- If the word should be printed on a new line
            let lines ← pushRenderLine line st false
            let crle := st.crle + 1
            pure ({ st with
                    lines := lines,
                    crle := crle,
                    crls := crle,
                    x := 0,
                    is_line_start := true }, crle)
          else
            pure (st, st.crle + 1)
        let st ← hyphenLoop max_width line word_start_index word 0 st
        -- Update end pointer to point past the end of the string
        wordLoop max_width line words { st with crle := word_start_index + wordLen word }
      else do
        -- If the word does not need to be hyphenated: move to new line
        let lines ← pushRenderLine line st false
        wordLoop max_width line words
          { st with
            lines := lines,
            crls := st.crle + 1,
            crle := st.crle + wordLen word + 1,
            x := width }

/-- `TextLayout::add_source_line`: wraps one source line (given pre-split on
spaces), appending the produced render lines to `lines`. -/
def add_source_line (max_width : Nat) (lines : List TextLine)
    (words : List Word) : Option (List TextLine) := do
  let line := lineGraphemes words
  let st ← wordLoop max_width line words ⟨0, 0, 0, true, lines⟩
  -- Add the rest of the characters on a new line
  pushRenderLine line st false

/-- `TextLayout::new`: lays out a whole text, already split at the `'\n'`
bytes into source lines and at `' '` bytes into words. -/
def TextLayout.new (text : List (List Word)) (max_width : Nat) :
    Option (List TextLine) :=
  text.foldlM (add_source_line max_width) []

/-- The display-column width of a produced line as the claim measures it:
the summed width of its content plus one column for the continuation
hyphen when `dash_at_end` is set. -/
def TextLine.measuredWidth (l : TextLine) : Nat :=
  (l.content.map Grapheme.width).sum + (if l.dash_at_end then 1 else 0)

/-! ## Theorems for the claims -/

/-- Helper: a successful indexing lookup gives the index bound. -/
theorem getElem?_some_lt {α : Type} {l : List α} {i : Nat} {a : α}
    (h : l[i]? = some a) : i < l.length :=
  (List.getElem?_eq_some.mp h).1

/-- Helper: `heal_to_max` evaluated in closed form when the current health
does not exceed the maximum. -/
theorem heal_to_max_eq (h : Health) (amt : Damage) (max : Health)
    (hle : h.val ≤ max.val) :
    h.heal_to_max amt max =
      some (⟨Nat.min max.val (h.val + amt.val)⟩,
            ⟨Nat.min max.val (h.val + amt.val) - h.val⟩) := by
  have hc : h.val ≤ Nat.min max.val (h.val + amt.val) := by
    simp only [Nat.min_def]
    split <;> omega
  simp [Health.heal_to_max, checkedSub, hc]

/-- C5: for every current health value `current ≤ max` and every heal
amount, `heal_to_max current amount max` succeeds and yields a new health
value that is at most `max`; the new health equals `current` plus the
returned actual increase, and the returned actual increase equals
`min amount (max - current)`. -/
theorem heal_to_max_clamps (current : Health) (amount : Damage) (max : Health)
    (hle : current.val ≤ max.val) :
    ∃ new inc, current.heal_to_max amount max = some (new, inc) ∧
      new.val ≤ max.val ∧
      new.val = current.val + inc.val ∧
      inc.val = Nat.min amount.val (max.val - current.val) := by
  refine ⟨⟨Nat.min max.val (current.val + amount.val)⟩,
    ⟨Nat.min max.val (current.val + amount.val) - current.val⟩, ?_, ?_, ?_, ?_⟩
  · exact heal_to_max_eq current amount max hle
  · show Nat.min max.val (current.val + amount.val) ≤ max.val
    simp only [Nat.min_def]
    split <;> omega
  · show Nat.min max.val (current.val + amount.val) =
      current.val + (Nat.min max.val (current.val + amount.val) - current.val)
    simp only [Nat.min_def]
    split <;> omega
  · show Nat.min max.val (current.val + amount.val) - current.val =
      Nat.min amount.val (max.val - current.val)
    simp only [Nat.min_def]
    split <;> split <;> omega

/-- Witness for `heal_to_max_clamps` at current 4, amount 9, max 10. -/
theorem heal_to_max_clamps_witness :
    (4 : Nat) ≤ 10 ∧
    ∃ new inc, Health.heal_to_max ⟨4⟩ ⟨9⟩ ⟨10⟩ = some (new, inc) ∧
      new.val ≤ 10 ∧ new.val = 4 + inc.val ∧ inc.val = Nat.min 9 (10 - 4) :=
  ⟨by decide, heal_to_max_clamps ⟨4⟩ ⟨9⟩ ⟨10⟩ (by decide)⟩

/-- C6: subtracting a `Damage` from a `Health` — both the `Sub` and the
`SubAssign` embeddings — is a total function that saturates at zero:
whenever the damage magnitude is at least the health the result is exactly
0, and otherwise the subtraction is exact. -/
theorem health_sub_saturates (h : Health) (d : Damage) :
    h.sub_assign d = h.sub d ∧
    (h.val ≤ d.val → h.sub d = ⟨0⟩) ∧
    (d.val ≤ h.val → (h.sub d).val + d.val = h.val) := by
  refine ⟨rfl, ?_, ?_⟩ <;> intro hv <;> simp [Health.sub] <;> omega

/-- Witness for `health_sub_saturates` at health 3, damage 5. -/
theorem health_sub_saturates_witness :
    Health.sub_assign ⟨3⟩ ⟨5⟩ = Health.sub ⟨3⟩ ⟨5⟩ ∧
    (3 : Nat) ≤ 5 ∧ Health.sub ⟨3⟩ ⟨5⟩ = ⟨0⟩ :=
  ⟨(health_sub_saturates ⟨3⟩ ⟨5⟩).1, by decide,
    (health_sub_saturates ⟨3⟩ ⟨5⟩).2.1 (by decide)⟩

/-- C3: whenever the enemy's current health times 2 is at most its max
health and its inventory contains a `Food` item, the chosen combat action
is `EatFood` at the index of the first food item in inventory order,
whatever the turn number (and hence whatever the hash evaluates to: the
survival branch returns before the hash is consulted). -/
theorem survival_eat_priority (e : Enemy) (turn_number i : Nat)
    (hhp : e.health.as_usize * 2 ≤ e.max_health.as_usize)
    (hfood : listPosition Item.isFood e.inventory = some i) :
    (e.choose_combat_action turn_number).1 = .eatFood i := by
  unfold Enemy.choose_combat_action
  rw [if_pos hhp, hfood]

/-- Witness for `survival_eat_priority`: an enemy at 3/7 health holding one
food item and no weapon chooses to eat it on turn 42. -/
theorem survival_eat_priority_witness :
    (Health.mk 3).as_usize * 2 ≤ (Health.mk 7).as_usize ∧
    listPosition Item.isFood [Item.food ⟨"Bread", "stale", ⟨5⟩⟩] = some 0 ∧
    ((Enemy.mk "Juuran" "an officer" [Item.food ⟨"Bread", "stale", ⟨5⟩⟩]
        ⟨3⟩ ⟨7⟩).choose_combat_action 42).1 = .eatFood 0 :=
  ⟨by decide, by decide,
    survival_eat_priority _ 42 0 (by decide) (by decide)⟩

/-- C4: the enemy's combat-action choice is a pure, deterministic function
of the enemy's full hashable state (name, description, inventory, health,
max health) and the turn number: any two calls on componentwise-equal
states and equal turn numbers return the identical result. -/
theorem choose_combat_action_deterministic (e₁ e₂ : Enemy) (t₁ t₂ : Nat)
    (hname : e₁.name = e₂.name)
    (hdescr : e₁.description = e₂.description)
    (hinv : e₁.inventory = e₂.inventory)
    (hhp : e₁.health = e₂.health)
    (hmax : e₁.max_health = e₂.max_health)
    (hturn : t₁ = t₂) :
    e₁.choose_combat_action t₁ = e₂.choose_combat_action t₂ := by
  have he : e₁ = e₂ := by
    cases e₁
    cases e₂
    simp_all
  rw [he, hturn]

/-- Witness for `choose_combat_action_deterministic` at a concrete armed
enemy and turn 7. -/
theorem choose_combat_action_deterministic_witness :
    ((Enemy.mk "Pirate" "a pirate" [Item.weapon ⟨"Darts", "sharp", ⟨5⟩, ⟨3⟩, 3⟩]
        ⟨7⟩ ⟨7⟩).choose_combat_action 7) =
    ((Enemy.mk "Pirate" "a pirate" [Item.weapon ⟨"Darts", "sharp", ⟨5⟩, ⟨3⟩, 3⟩]
        ⟨7⟩ ⟨7⟩).choose_combat_action 7) :=
  choose_combat_action_deterministic _ _ 7 7 rfl rfl rfl rfl rfl rfl

/-- C10: choosing the enemy's combat action has no side effect on the
enemy: the enemy state the call hands back has exactly the health, max
health, inventory, name and description it was called with, for every
enemy state and turn number. -/
theorem choose_combat_action_frame (e : Enemy) (turn_number : Nat) :
    ((e.choose_combat_action turn_number).2.health = e.health) ∧
    ((e.choose_combat_action turn_number).2.max_health = e.max_health) ∧
    ((e.choose_combat_action turn_number).2.inventory = e.inventory) ∧
    ((e.choose_combat_action turn_number).2.name = e.name) ∧
    ((e.choose_combat_action turn_number).2.description = e.description) := by
  have hsnd : (e.choose_combat_action turn_number).2 = e := by
    unfold Enemy.choose_combat_action
    dsimp only
    repeat' split
    all_goals rfl
  rw [hsnd]
  exact ⟨rfl, rfl, rfl, rfl, rfl⟩

/-- C1: when both combatants attack straight with valid weapon indices,
the strictly lower weapon speed hits alone (the other side's health is
unchanged), and equal speeds hit both, each side losing the opposing
weapon's `straight_damage` (saturating at zero). -/
theorem both_attack_straight_speed (player : Player) (enemy : Enemy)
    (p e : Nat) (pw ew : Weapon)
    (hp : player.inventory[p]? = some (.weapon pw))
    (he : enemy.inventory[e]? = some (.weapon ew)) :
    (pw.speed < ew.speed →
      execute_actions player enemy (.attackStraight p) (.attackStraight e) =
        some (player,
          { enemy with health := enemy.health.sub_assign pw.straight_damage })) ∧
    (ew.speed < pw.speed →
      execute_actions player enemy (.attackStraight p) (.attackStraight e) =
        some ({ player with health := player.health.sub_assign ew.straight_damage },
          enemy)) ∧
    (pw.speed = ew.speed →
      execute_actions player enemy (.attackStraight p) (.attackStraight e) =
        some ({ player with health := player.health.sub_assign ew.straight_damage },
          { enemy with health := enemy.health.sub_assign pw.straight_damage })) := by
  have hpl : p < player.inventory.length := getElem?_some_lt hp
  have hel : e < enemy.inventory.length := getElem?_some_lt he
  refine ⟨fun hs => ?_, fun hs => ?_, fun hs => ?_⟩
  · have hcmp : compare pw.speed ew.speed = Ordering.lt := Nat.compare_eq_lt.mpr hs
    simp [execute_actions, resolve_turn, describe_combat_action_ok, hp, he, hcmp, hpl, hel]
  · have hcmp : compare pw.speed ew.speed = Ordering.gt := Nat.compare_eq_gt.mpr hs
    simp [execute_actions, resolve_turn, describe_combat_action_ok, hp, he, hcmp, hpl, hel]
  · have hcmp : compare pw.speed ew.speed = Ordering.eq := Nat.compare_eq_eq.mpr hs
    simp [execute_actions, resolve_turn, describe_combat_action_ok, hp, he, hcmp, hpl, hel]

/-- Witness for `both_attack_straight_speed`: the spec's concrete scenario.
Player at 10/10 with Weapon{straight=5,dodge=3,speed=3} against enemy at
7/7 with Weapon{straight=5,dodge=2,speed=4}; after one mutual straight
attack the enemy is at 2/7 and the player still at 10/10. -/
theorem both_attack_straight_speed_witness :
    execute_actions
      ⟨[Item.weapon ⟨"Knife", "sharp", ⟨5⟩, ⟨3⟩, 3⟩], ⟨10⟩, ⟨10⟩⟩
      ⟨"Pirate", "a pirate", [Item.weapon ⟨"Club", "heavy", ⟨5⟩, ⟨2⟩, 4⟩], ⟨7⟩, ⟨7⟩⟩
      (.attackStraight 0) (.attackStraight 0) =
    some (⟨[Item.weapon ⟨"Knife", "sharp", ⟨5⟩, ⟨3⟩, 3⟩], ⟨10⟩, ⟨10⟩⟩,
      ⟨"Pirate", "a pirate", [Item.weapon ⟨"Club", "heavy", ⟨5⟩, ⟨2⟩, 4⟩], ⟨2⟩, ⟨7⟩⟩) :=
  (both_attack_straight_speed
    ⟨[Item.weapon ⟨"Knife", "sharp", ⟨5⟩, ⟨3⟩, 3⟩], ⟨10⟩, ⟨10⟩⟩
    ⟨"Pirate", "a pirate", [Item.weapon ⟨"Club", "heavy", ⟨5⟩, ⟨2⟩, 4⟩], ⟨7⟩, ⟨7⟩⟩
    0 0 ⟨"Knife", "sharp", ⟨5⟩, ⟨3⟩, 3⟩ ⟨"Club", "heavy", ⟨5⟩, ⟨2⟩, 4⟩
    rfl rfl).1 (by decide)

/-- C2 counterexample: the claim says (player `AttackLeft`, enemy `EatFood`)
resolves as a one-sided flank-attack miss, leaving both healths unchanged
and the enemy's food in place.  Against an enemy at 3/7 eating
Bread{heals_for=4} from the inventory [Bread, Club], the engine instead
resolves the enemy-heals branch and the turn completes with the bread
removed and the enemy's health risen from 3 to 7; and when the eaten index
is the enemy's last (sole item Bread), the narration build then panics
(`none`) — in neither case the claimed no-effect miss. -/
theorem flank_vs_eat_counterexample :
    execute_actions
      ⟨[Item.weapon ⟨"Knife", "sharp", ⟨5⟩, ⟨3⟩, 3⟩], ⟨10⟩, ⟨10⟩⟩
      ⟨"Pirate", "a pirate",
        [Item.food ⟨"Bread", "stale", ⟨4⟩⟩, Item.weapon ⟨"Club", "heavy", ⟨5⟩, ⟨2⟩, 4⟩],
        ⟨3⟩, ⟨7⟩⟩
      (.attackLeft 0) (.eatFood 0) =
    some (⟨[Item.weapon ⟨"Knife", "sharp", ⟨5⟩, ⟨3⟩, 3⟩], ⟨10⟩, ⟨10⟩⟩,
      ⟨"Pirate", "a pirate", [Item.weapon ⟨"Club", "heavy", ⟨5⟩, ⟨2⟩, 4⟩], ⟨7⟩, ⟨7⟩⟩) ∧
    (Health.mk 7 ≠ Health.mk 3) ∧
    ([Item.weapon ⟨"Club", "heavy", ⟨5⟩, ⟨2⟩, 4⟩] ≠
      [Item.food ⟨"Bread", "stale", ⟨4⟩⟩, Item.weapon ⟨"Club", "heavy", ⟨5⟩, ⟨2⟩, 4⟩]) ∧
    execute_actions
      ⟨[Item.weapon ⟨"Knife", "sharp", ⟨5⟩, ⟨3⟩, 3⟩], ⟨10⟩, ⟨10⟩⟩
      ⟨"Pirate", "a pirate", [Item.food ⟨"Bread", "stale", ⟨4⟩⟩], ⟨3⟩, ⟨7⟩⟩
      (.attackLeft 0) (.eatFood 0) = none := by
  refine ⟨by decide, by decide, by decide, by decide⟩

/-- C2 amended: for every state of both combatants, the action pair
(player `AttackLeft` at a valid weapon index, enemy `EatFood` at a valid
food index) is resolved by the one-side-eats branch for the enemy, not by
the flank-attack-miss branch: the enemy's food item is removed from its
inventory and the enemy heals by it up to its max health, while the
player's health and inventory are unchanged and the flank attack has no
effect — and then, if the eaten index was the enemy's last inventory
index, the source panics while building the turn narration
(`describe_combat_action` indexes the already-shrunk inventory); otherwise
the turn completes with exactly those effects. -/
theorem flank_vs_eat_enemy_eats (player : Player) (enemy : Enemy)
    (p ei : Nat) (pw : Weapon) (f : Food) (inv' : List Item)
    (hpw : player.inventory[p]? = some (.weapon pw))
    (hrem : vecRemove enemy.inventory ei = some (.food f, inv'))
    (hle : enemy.health.val ≤ enemy.max_health.val) :
    (ei < inv'.length →
      execute_actions player enemy (.attackLeft p) (.eatFood ei) =
        some (player,
          { enemy with
            inventory := inv',
            health := ⟨Nat.min enemy.max_health.val
              (enemy.health.val + f.heals_for.val)⟩ })) ∧
    (inv'.length ≤ ei →
      execute_actions player enemy (.attackLeft p) (.eatFood ei) = none) := by
  have hpl : p < player.inventory.length := getElem?_some_lt hpw
  constructor
  · intro hei
    simp [execute_actions, resolve_turn, describe_combat_action_ok, hrem,
      heal_to_max_eq enemy.health f.heals_for enemy.max_health hle, hpl, hei]
  · intro hei
    have hno : ¬ ei < inv'.length := by omega
    simp [execute_actions, resolve_turn, describe_combat_action_ok, hrem,
      heal_to_max_eq enemy.health f.heals_for enemy.max_health hle, hpl, hno]

/-- Witness for `flank_vs_eat_enemy_eats` at the counterexample's
completing input (the eaten bread is not the enemy's last item). -/
theorem flank_vs_eat_enemy_eats_witness :
    ([Item.weapon ⟨"Knife", "sharp", ⟨5⟩, ⟨3⟩, 3⟩] : List Item)[0]? =
      some (Item.weapon ⟨"Knife", "sharp", ⟨5⟩, ⟨3⟩, 3⟩) ∧
    vecRemove
      [Item.food ⟨"Bread", "stale", ⟨4⟩⟩, Item.weapon ⟨"Club", "heavy", ⟨5⟩, ⟨2⟩, 4⟩] 0 =
      some (Item.food ⟨"Bread", "stale", ⟨4⟩⟩,
        [Item.weapon ⟨"Club", "heavy", ⟨5⟩, ⟨2⟩, 4⟩]) ∧
    (3 : Nat) ≤ 7 ∧ (0 : Nat) < 1 ∧
    execute_actions
      ⟨[Item.weapon ⟨"Knife", "sharp", ⟨5⟩, ⟨3⟩, 3⟩], ⟨10⟩, ⟨10⟩⟩
      ⟨"Pirate", "a pirate",
        [Item.food ⟨"Bread", "stale", ⟨4⟩⟩, Item.weapon ⟨"Club", "heavy", ⟨5⟩, ⟨2⟩, 4⟩],
        ⟨3⟩, ⟨7⟩⟩
      (.attackLeft 0) (.eatFood 0) =
    some (⟨[Item.weapon ⟨"Knife", "sharp", ⟨5⟩, ⟨3⟩, 3⟩], ⟨10⟩, ⟨10⟩⟩,
      ⟨"Pirate", "a pirate", [Item.weapon ⟨"Club", "heavy", ⟨5⟩, ⟨2⟩, 4⟩], ⟨7⟩, ⟨7⟩⟩) :=
  ⟨by decide, by decide, by decide, by decide,
    (flank_vs_eat_enemy_eats
      ⟨[Item.weapon ⟨"Knife", "sharp", ⟨5⟩, ⟨3⟩, 3⟩], ⟨10⟩, ⟨10⟩⟩
      ⟨"Pirate", "a pirate",
        [Item.food ⟨"Bread", "stale", ⟨4⟩⟩, Item.weapon ⟨"Club", "heavy", ⟨5⟩, ⟨2⟩, 4⟩],
        ⟨3⟩, ⟨7⟩⟩
      0 0 ⟨"Knife", "sharp", ⟨5⟩, ⟨3⟩, 3⟩ ⟨"Bread", "stale", ⟨4⟩⟩
      [Item.weapon ⟨"Club", "heavy", ⟨5⟩, ⟨2⟩, 4⟩]
      rfl rfl (by decide)).1 (by decide)⟩

/-- C7: in every battle-loop iteration, after the turn's actions are
resolved the player-health-zero check runs before the enemy-health-zero
check: a turn that zeroes the player's health returns `PlayerLoss` with the
player state exactly as the turn left it (no item transfer), even if the
same turn also zeroed the enemy; `PlayerWin` (with the enemy's surviving
inventory appended to the player's) is returned only when the enemy's
health is zero and the player's is not. -/
theorem battle_check_order (acts : Nat → Action) (fuel : Nat)
    (player : Player) (enemy : Enemy) (turn_number : Nat)
    (enemy_action : Action) (e₁ : Enemy) (p' : Player) (e' : Enemy)
    (hchoose : enemy.choose_combat_action turn_number = (enemy_action, e₁))
    (hexec : execute_actions player e₁ (acts turn_number) enemy_action =
      some (p', e')) :
    (p'.health.is_0 = true →
      battle_loop acts (fuel + 1) player enemy turn_number =
        some (.playerLoss, p', turn_number)) ∧
    (p'.health.is_0 = false → e'.health.is_0 = true →
      battle_loop acts (fuel + 1) player enemy turn_number =
        some (.playerWin, win_battle p' e', turn_number) ∧
      (win_battle p' e').inventory = p'.inventory ++ e'.inventory) := by
  have htransfer : ∀ (pl : Player) (items : List Item),
      (items.foldl Player.pick_up_item pl).inventory = pl.inventory ++ items := by
    intro pl items
    induction items generalizing pl with
    | nil => simp
    | cons a as ih => simp [Player.pick_up_item, ih]
  constructor
  · intro h0
    unfold battle_loop
    rw [hchoose]
    dsimp only
    rw [hexec]
    simp [h0]
  · intro hp0 he0
    refine ⟨?_, htransfer p' e'.inventory⟩
    unfold battle_loop
    rw [hchoose]
    dsimp only
    rw [hexec]
    simp [hp0, he0]

/-- Witness for `battle_check_order`: a player with a knife attacks
straight while the enemy (at 2/7 with bread in hand) chooses to eat; the
straight attack interrupts the meal, the enemy's health saturates to 0 and
the battle ends in `PlayerWin` with the uneaten bread transferred. -/
theorem battle_check_order_witness :
    battle_loop (fun _ => .attackStraight 0) 1
      ⟨[Item.weapon ⟨"Knife", "sharp", ⟨5⟩, ⟨3⟩, 3⟩], ⟨10⟩, ⟨10⟩⟩
      ⟨"Pirate", "a pirate", [Item.food ⟨"Bread", "stale", ⟨5⟩⟩], ⟨2⟩, ⟨7⟩⟩ 0 =
    some (.playerWin,
      ⟨[Item.weapon ⟨"Knife", "sharp", ⟨5⟩, ⟨3⟩, 3⟩,
        Item.food ⟨"Bread", "stale", ⟨5⟩⟩], ⟨10⟩, ⟨10⟩⟩, 0) :=
  ((battle_check_order (fun _ => .attackStraight 0) 0
    ⟨[Item.weapon ⟨"Knife", "sharp", ⟨5⟩, ⟨3⟩, 3⟩], ⟨10⟩, ⟨10⟩⟩
    ⟨"Pirate", "a pirate", [Item.food ⟨"Bread", "stale", ⟨5⟩⟩], ⟨2⟩, ⟨7⟩⟩ 0
    (.eatFood 0)
    ⟨"Pirate", "a pirate", [Item.food ⟨"Bread", "stale", ⟨5⟩⟩], ⟨2⟩, ⟨7⟩⟩
    ⟨[Item.weapon ⟨"Knife", "sharp", ⟨5⟩, ⟨3⟩, 3⟩], ⟨10⟩, ⟨10⟩⟩
    ⟨"Pirate", "a pirate", [Item.food ⟨"Bread", "stale", ⟨5⟩⟩], ⟨0⟩, ⟨7⟩⟩
    rfl rfl).2 rfl rfl).1

/-- C8 counterexample: the claim bounds the recomputed scroll offset by
`max 0 (N - C)` and keeps the selection inside the visible window for every
capacity `C > 0`.  Both parts fail on the code: with 5 items, capacity 3,
selection 4 and previous offset 0 the computed offset is 3 while
`max 0 (5 - 3) = 2`; and with 5 items, capacity 1, selection 0 and
previous offset 0 the computed offset is 1, which is above the selection
(and the window shows no item rows at all). -/
theorem render_list_scroll_counterexample :
    render_list_scroll 5 3 4 0 = 3 ∧
    ¬ (render_list_scroll 5 3 4 0 ≤ Nat.max 0 (5 - 3)) ∧
    render_list_scroll 5 1 0 0 = 1 ∧
    ¬ (render_list_scroll 5 1 0 0 ≤ 0) ∧
    render_list_visible_rows 5 1 (render_list_scroll 5 1 0 0) = 0 := by
  refine ⟨by decide, by decide, by decide, by decide, by decide⟩

/-- C8 amended: for every item count `N`, capacity `C ≥ 2`, selection in
`[0, N)` and previous offset at most `max 0 (N - C)` (the range every
offset the tracker itself produces for an unchanged list and screen lies
in, up to one extra row), the recomputed offset satisfies
`0 ≤ offset ≤ max 0 (N - C) + 1`, is `0` whenever `N ≤ C`, and keeps the
selection inside the visible window:
`offset ≤ selection < offset + visible_rows`. -/
theorem render_list_scroll_clamp (num_items max_lines selected scroll : Nat)
    (hcap : 2 ≤ max_lines) (hsel : selected < num_items)
    (hprev : scroll ≤ num_items - max_lines) :
    render_list_scroll num_items max_lines selected scroll ≤
      (num_items - max_lines) + 1 ∧
    (num_items ≤ max_lines →
      render_list_scroll num_items max_lines selected scroll = 0) ∧
    render_list_scroll num_items max_lines selected scroll ≤ selected ∧
    selected < render_list_scroll num_items max_lines selected scroll +
      render_list_visible_rows num_items max_lines
        (render_list_scroll num_items max_lines selected scroll) := by
  unfold render_list_scroll render_list_visible_rows
  dsimp only
  simp only [Nat.min_def]
  split_ifs <;> omega

/-- Witness for `render_list_scroll_clamp` at 10 items, capacity 3,
selection 9, previous offset 0. -/
theorem render_list_scroll_clamp_witness :
    (2 ≤ 3 ∧ 9 < 10 ∧ 0 ≤ 10 - 3) ∧
    render_list_scroll 10 3 9 0 ≤ (10 - 3) + 1 ∧
    (10 ≤ 3 → render_list_scroll 10 3 9 0 = 0) ∧
    render_list_scroll 10 3 9 0 ≤ 9 ∧
    9 < render_list_scroll 10 3 9 0 +
      render_list_visible_rows 10 3 (render_list_scroll 10 3 9 0) :=
  ⟨⟨by decide, by decide, by decide⟩,
    render_list_scroll_clamp 10 3 9 0 (by decide) (by decide) (by decide)⟩

/-- C9: the claim states that the layout engine terminates without
panicking on every input and bounds every produced line's width.  The
repository's own test `test_line_wrapping` feeds it `"A".repeat(100)` at
maximum width 50 (one hundred single-byte, single-column clusters in one
word) and expects two hyphenated 49-column lines plus a remainder — but on
any source line whose first word is wider than the budget the source
computes `self.max_width - (x - 1)` with `x = 0`, an underflowing `usize`
subtraction, so the layout panics instead (in a release build the wrapped
value then drives an out-of-range string slice).  The model evaluates the
test's input to the panic value `none`. -/
theorem text_layout_panics_on_long_first_word :
    TextLayout.new [[List.replicate 100 (⟨1, 1⟩ : Grapheme)]] 50 = none := by
  decide

end TimeLoop
